import Mathlib

/-!
Verification development for the PC-assistance-software core: tool registry,
plan executor, permission policy, confidence scorer, semantic router, planner
filtering and the orchestrator finite-state machine.  Each definition is a
shallow embedding of the corresponding Python source in `src/`.
-/

namespace PCAssist

/-- Python values as they occur in plans, tool results and ledger entries:
strings, integers, booleans, `None`, lists and string-keyed dicts. -/
inductive PyVal where
  | str (s : String)
  | int (n : Int)
  | bool (b : Bool)
  | none
  | list (xs : List PyVal)
  | dict (d : List (String × PyVal))
deriving Repr

/-- `d.get(k)`: the value of the first matching key, if present. -/
def pyGet (d : List (String × PyVal)) (k : String) : Option PyVal :=
  (d.find? (fun kv => kv.1 == k)).map (fun kv => kv.2)

/-- Python `str.lower()`, as a per-character map (ASCII-adequate for the
risk-tier strings this code compares). -/
def pyLower (s : String) : String := ⟨s.data.map Char.toLower⟩

/-- Python `str.upper()`, as a per-character map. -/
def pyUpper (s : String) : String := ⟨s.data.map Char.toUpper⟩

/-- A keyword-argument bag (Python `dict` of arguments passed to a tool). -/
def Args : Type := List (String × PyVal)

/-- `True` iff the Python value is a dict. -/
def PyVal.isDict : PyVal → Bool
  | .dict _ => true
  | _ => false

/-- `result.get("status", "success") if isinstance(result, dict) else "success"`
(executor.py line 86): the status the executor extracts from a tool result. -/
def statusOf (v : PyVal) : PyVal :=
  match v with
  | .dict d => (pyGet d "status").getD (.str "success")
  | _ => .str "success"

/-- The `status` value of a ledger-entry dict, if the entry is a dict with one. -/
def entryStatus (e : PyVal) : Option PyVal :=
  match e with
  | .dict d => pyGet d "status"
  | _ => Option.none

/-- The `tool` value of a ledger-entry dict, if the entry is a dict with one. -/
def entryTool (e : PyVal) : Option PyVal :=
  match e with
  | .dict d => pyGet d "tool"
  | _ => Option.none

/-! ## Plan steps (`Step` dicts of the plan document, §6 and executor.py) -/

/-- One plan step, a JSON dict whose fields may each be absent (`Option`).
The executor reads `step_id`, `tool_name`/`tool`, `arguments`/`params` and
`on_failure` via `dict.get`; `dependencies` is carried but never read by the
executor. A Python key mapped to `None` behaves like an absent key for every
reader (all use `.get`), so both are modelled as `Option.none`. -/
structure Step where
  step_id : Option Int := Option.none
  tool_name : Option String := Option.none
  tool : Option String := Option.none
  arguments : Option Args := Option.none
  params : Option Args := Option.none
  dependencies : Option (List Int) := Option.none
  on_failure : Option String := Option.none

/-- `step.get("tool_name") or step.get("tool", "")` (executor.py line 45; the
scorer's `step.get("tool_name", "") or step.get("tool", "")` at
orchestrator.py line 256 computes the same value, since both a missing key and
the empty string are falsy). -/
def Step.effTool (s : Step) : String :=
  match s.tool_name with
  | Option.some t => if t == "" then s.tool.getD "" else t
  | Option.none => s.tool.getD ""

/-- `step.get("arguments") or step.get("params", {})` (executor.py line 46):
an absent or empty `arguments` dict is falsy and falls back to `params`. -/
def Step.effArgs (s : Step) : Args :=
  match s.arguments with
  | Option.some a => if a.isEmpty then s.params.getD [] else a
  | Option.none => s.params.getD []

/-! ## Tool registry (registry.py) -/

/-- One entry of a tool's `parameters` list (registry.py lines 59-68). -/
structure ToolParam where
  pname : String
  ptype : String := "string"
  required : Bool
  default : Option PyVal := Option.none

/-- What a tool callable does when invoked: return a value, raise a
`TypeError` (e.g. from invalid keyword arguments), or raise any other
exception.  The message string is the `str(e)` of the exception. -/
inductive ToolOutcome where
  | ret (v : PyVal)
  | raiseTypeError (msg : String)
  | raiseOther (msg : String)

/-- Metadata for a registered tool (registry.py `ToolMeta`); `func` is the
behaviour of the registered callable on a given argument bag. -/
structure ToolMeta where
  name : String
  func : Args → ToolOutcome
  risk_level : String
  category : String := "general"
  description : String := ""
  parameters : List ToolParam := []

/-- The registry's `_tools` dict; keys are the metas' `name` fields and are
unique (Python dict keyed by function name). -/
structure ToolRegistry where
  tools : List ToolMeta

/-- `registry.get(name)` (registry.py line 92): descriptor or `None`. -/
def ToolRegistry.get (reg : ToolRegistry) (name : String) : Option ToolMeta :=
  reg.tools.find? (fun t => t.name == name)

/-- The registered tool names, in registration order (the `name` fields of
`to_dict_list()` / `list_names()`). -/
def ToolRegistry.names (reg : ToolRegistry) : List String :=
  reg.tools.map (fun t => t.name)

/-- One element of `registry.list_tools()` (registry.py lines 107-121). -/
structure ListedTool where
  name : String
  description : String
  risk : String
  category : String
  params : List ToolParam

/-- `registry.list_tools()`: risk lowercased, `params` restricted to the
required parameters. -/
def ToolRegistry.list_tools (reg : ToolRegistry) : List ListedTool :=
  reg.tools.map (fun t =>
    { name := t.name
      description := t.description
      risk := pyLower t.risk_level
      category := t.category
      params := t.parameters.filter (fun p => p.required) })

/-- `registry.execute(name, params)` (registry.py lines 127-144): unknown name,
`TypeError` and any other raised exception are all converted into an
`{status: error, message: ...}` dict; a normal return is passed through
unchanged.  The function is total: it never propagates an exception. -/
def ToolRegistry.execute (reg : ToolRegistry) (name : String) (params : Args) : PyVal :=
  match reg.get name with
  | Option.none =>
      .dict [("status", .str "error"),
             ("message", .str ("Tool " ++ name ++ " not found"))]
  | Option.some meta =>
      match meta.func params with
      | .ret v => v
      | .raiseTypeError m =>
          .dict [("status", .str "error"),
                 ("message", .str ("Invalid parameters: " ++ m))]
      | .raiseOther m =>
          .dict [("status", .str "error"),
                 ("message", .str ("Execution failed: " ++ m))]

/-! ## Plan executor (executor.py) -/

/-- A permission callback `fn(step_id, tool_name, risk, args) -> bool`. -/
def PermFn : Type := Int → String → String → Args → Bool

/-- Ledger entry for an unresolved tool (executor.py lines 54-59). -/
def notFoundEntry (sid : Int) (tool : String) : PyVal :=
  .dict [("step_id", .int sid), ("tool", .str tool), ("status", .str "failed"),
         ("error", .str ("Tool " ++ tool ++ " not found in registry"))]

/-- Ledger entry for a permission denial (executor.py lines 73-78). -/
def skippedEntry (sid : Int) (tool : String) : PyVal :=
  .dict [("step_id", .int sid), ("tool", .str tool), ("status", .str "skipped"),
         ("error", .str "Permission denied by user")]

/-- Ledger entry for a normal tool return (executor.py lines 87-92); the
status is the one embedded in the result dict, defaulting to `success`. -/
def okEntry (sid : Int) (tool : String) (result : PyVal) : PyVal :=
  .dict [("step_id", .int sid), ("tool", .str tool), ("status", statusOf result),
         ("result", result)]

/-- Ledger entry for an exception escaping `Executor._run`
(executor.py lines 96-101). -/
def exceptEntry (sid : Int) (tool : String) (e : String) : PyVal :=
  .dict [("step_id", .int sid), ("tool", .str tool), ("status", .str "failed"),
         ("error", .str e)]

/-- The step loop of `Executor.execute_plan` (executor.py lines 43-105).
`runTool` models `Executor._run`, which may in principle raise (`.error`);
`confirm` models the optional `confirm_callback`.  The accumulator is the
`results` ledger built so far; `break` is modelled by returning without
recursing on the remaining steps. -/
def execPlanAux (runTool : String → Args → Except String PyVal)
    (reg : ToolRegistry) (confirm : Option PermFn) :
    List Step → List PyVal → List PyVal
  | [], results => results
  | step :: rest, results =>
    let sid := step.step_id.getD (Int.ofNat results.length + 1)
    let tool := step.effTool
    let args := step.effArgs
    let onf := step.on_failure.getD "abort"
    match reg.get tool with
    | Option.none =>
        let results' := results ++ [notFoundEntry sid tool]
        if onf == "abort" then results'
        else execPlanAux runTool reg confirm rest results'
    | Option.some meta =>
        let risk := meta.risk_level
        let denied := match confirm with
          | Option.some cb => !(cb sid tool risk args)
          | Option.none => false
        if denied then
          let results' := results ++ [skippedEntry sid tool]
          if onf == "abort" then results'
          else execPlanAux runTool reg confirm rest results'
        else
          match runTool tool args with
          | .ok result =>
              execPlanAux runTool reg confirm rest (results ++ [okEntry sid tool result])
          | .error e =>
              let results' := results ++ [exceptEntry sid tool e]
              if onf == "abort" then results'
              else execPlanAux runTool reg confirm rest results'

/-- `Executor._run` as it is actually wired (executor.py lines 109-124):
it awaits `registry.execute`, which is total, so the composed call always
returns normally with the registry's value. -/
def composedRunTool (reg : ToolRegistry) : String → Args → Except String PyVal :=
  fun name args => Except.ok (reg.execute name args)

/-! ## Plan documents (the raw JSON the planner LLM / router produce) -/

/-- The `steps` entry of a raw plan dict: absent, present but not a list
(iterating it raises `TypeError`), or a list of step dicts. -/
inductive StepsField where
  | absent
  | notList (v : PyVal)
  | list (ss : List Step)

/-- A raw plan JSON dict.  Only the presence of `reasoning` matters to the
code (schema validation); `confidence_prediction` is read with default `0.5`
and `steps` with default `[]`. -/
structure RawPlan where
  hasReasoning : Bool := true
  confidence_prediction : Option ℚ := Option.none
  steps : StepsField := StepsField.absent

/-- `plan.get("steps", [])` followed by iteration: `Option.none` when the
`steps` value is not a list, in which case the Python `for` raises. -/
def planSteps : StepsField → Option (List Step)
  | .absent => Option.some []
  | .notList _ => Option.none
  | .list ss => Option.some ss

/-- `Executor.execute_plan(plan, confirm_callback)` (executor.py lines 24-105):
reads `plan.get("steps", [])` and walks the steps with an empty ledger; a
non-list `steps` value makes the method itself raise a `TypeError`. -/
def execute_plan (runTool : String → Args → Except String PyVal)
    (reg : ToolRegistry) (confirm : Option PermFn) (plan : RawPlan) :
    Except String (List PyVal) :=
  match planSteps plan.steps with
  | Option.none => Except.error "TypeError: steps is not iterable"
  | Option.some ss => Except.ok (execPlanAux runTool reg confirm ss [])

/-! ## Permission / risk policy (orchestrator.py `check_permission`) -/

/-- Modelled from the spec: the safety-mode enum with members `Safe`,
`SemiAutonomous`, `Autonomous` (spec §4.2).  `core/config.py` does not define
`SafetyMode`, although `orchestrator.py`, `server.py` and the tests import it
from `core.config`; only its three member names appear in the importing code
and the spec. -/
inductive SafetyMode where
  | SAFE
  | SEMI_AUTONOMOUS
  | AUTONOMOUS
deriving DecidableEq

/-- `check_permission(step_id, tool_name, risk, args)` as defined inside
`Orchestrator._handle_executing` (orchestrator.py lines 312-321): Autonomous
always allows; SemiAutonomous auto-allows Safe-risk tools; otherwise the
decision defers to the display's `ask_permission` and is `False` when no
display is attached. -/
def check_permission (mode : SafetyMode) (display : Option PermFn)
    (step_id : Int) (tool_name : String) (risk : String) (args : Args) : Bool :=
  if mode = SafetyMode.AUTONOMOUS then true
  else if mode = SafetyMode.SEMI_AUTONOMOUS && pyUpper risk == "SAFE" then true
  else match display with
    | Option.some ask => ask step_id tool_name risk args
    | Option.none => false

/-! ## Confidence scorer (orchestrator.py `_handle_scoring`) -/

/-- `max(0.0, min(1.0, x))`. -/
def clamp01 (x : ℚ) : ℚ := max 0 (min 1 x)

/-- The running structural score: start at `1.0`, subtract `0.3` for each
step whose effective tool name is absent from the registry
(orchestrator.py lines 252-259). -/
def runningScore (reg : ToolRegistry) (steps : List Step) : ℚ :=
  steps.foldl
    (fun score step =>
      if (reg.get step.effTool).isNone then score - 3/10 else score)
    1

/-- The stored confidence score (orchestrator.py lines 261-264): average the
running score with the plan's `confidence_prediction` (default `0.5`), then
clamp to `[0,1]`. -/
def orchScore (reg : ToolRegistry) (steps : List Step) (conf : Option ℚ) : ℚ :=
  clamp01 ((runningScore reg steps + conf.getD (1/2)) / 2)

/-- The scorer as the spec words it (§4.3): `1.0` minus `0.3` per step whose
tool name is absent from the registry, averaged with the self-reported
confidence (default `0.5`), clamped to `[0,1]`.  Stated separately from
`orchScore` so the two can be compared. -/
def specScore (reg : ToolRegistry) (steps : List Step) (conf : Option ℚ) : ℚ :=
  let unknown : ℚ := (steps.filter (fun s => (reg.get s.effTool).isNone)).length
  clamp01 ((1 - 3/10 * unknown + conf.getD (1/2)) / 2)

/-! ## Planner hallucination filtering (planner.py `generate_plan`) -/

/-- The hallucination filter (planner.py lines 96-106): keep only steps whose
`tool_name` value is one of the advertised tool names; a step without a
`tool_name` key is dropped (`None` is not in the name set). -/
def filterSteps (validNames : List String) (ss : List Step) : List Step :=
  ss.filter (fun s =>
    match s.tool_name with
    | Option.some t => validNames.contains t
    | Option.none => false)

/-- `PlannerLLM.validate_plan_schema` (planner.py lines 118-130): both
`reasoning` and `steps` keys must be present and `steps` must be a list. -/
def validate_plan_schema (p : RawPlan) : Bool :=
  p.hasReasoning &&
    (match p.steps with
     | StepsField.list _ => true
     | _ => false)

/-- `PlannerLLM.generate_plan` after the LLM call (planner.py lines 89-116):
`llmResult` is the JSON extracted from the model output (`Option.none` when
extraction failed); steps naming unknown tools are filtered out, then the
schema is validated.  `validNames` is `{t["name"] for t in available_tools}`,
where the orchestrator passes `registry.to_dict_list()`. -/
def generate_plan (validNames : List String) (llmResult : Option RawPlan) :
    Option RawPlan :=
  match llmResult with
  | Option.none => Option.none
  | Option.some r =>
      let r' := match r.steps with
        | StepsField.list ss =>
            { r with steps := StepsField.list (filterSteps validNames ss) }
        | _ => r
      if validate_plan_schema r' then Option.some r' else Option.none

/-! ## Semantic router (router.py) -/

/-- `SemanticRouter._index_tools` (router.py lines 44-67): the ordered names
of the indexed tools — registered tools whose listed risk is `safe` and whose
required-parameter list is empty.  Position `i` of this list is `tool_map[i]`,
the name paired with embedding `i`. -/
def indexNames (tools : List ListedTool) : List String :=
  (tools.filter (fun t => t.risk == "safe" && t.params.isEmpty)).map
    (fun t => t.name)

/-- The router's state: the similarity threshold (`0.47` in the source),
whether the sentence-transformer model loaded, the embedding backend's top-1
`semantic_search` answer `(score, corpus_id)` for a query (`Option.none` when
`hits` is empty), and the indexed names. -/
structure RouterState where
  threshold : ℚ
  modelLoaded : Bool
  topHit : String → Option (ℚ × Nat)
  indexed : List String

/-- A router built over a registry (router.py `__init__`): when the model
failed to load, `_index_tools` returns early and nothing is indexed. -/
def mkRouter (threshold : ℚ) (modelLoaded : Bool)
    (topHit : String → Option (ℚ × Nat)) (reg : ToolRegistry) : RouterState :=
  { threshold := threshold
    modelLoaded := modelLoaded
    topHit := topHit
    indexed := if modelLoaded then indexNames reg.list_tools else [] }

/-- The one-step plan the router synthesizes on a hit (router.py lines
94-105).  `tool_name` is `tool_map.get(idx)`, which is `None` when the corpus
id is out of range. -/
def routerPlan (tool_name : Option String) (score : ℚ) : RawPlan :=
  { hasReasoning := true
    confidence_prediction := Option.some score
    steps := StepsField.list
      [{ step_id := Option.some 1
         tool_name := tool_name
         arguments := Option.some []
         on_failure := Option.some "abort" }] }

/-- `SemanticRouter.find_tool` (router.py lines 69-107): no model or an empty
index means no match; otherwise take the backend's top hit and synthesize a
plan iff its score reaches the threshold. -/
def find_tool (r : RouterState) (query : String) : Option RawPlan :=
  if !r.modelLoaded then Option.none
  else if r.indexed.isEmpty then Option.none
  else match r.topHit query with
    | Option.none => Option.none
    | Option.some (score, idx) =>
        if r.threshold ≤ score then
          Option.some (routerPlan (r.indexed.get? idx) score)
        else Option.none

/-! ## The `State` enum as `core/config.py` actually defines it (lines 10-19) -/

/-- The members of the `State` enum in `core/config.py`, in source order.
Note there is no `REPORTING` member, although `orchestrator.py` references
`State.REPORTING` and the repository's own test expects `State("reporting")`
to exist. -/
inductive ConfigState where
  | IDLE
  | NEGOTIATING
  | DIAGNOSING
  | PLANNING
  | SCORING
  | VALIDATING
  | EXECUTING
  | LEARNING
  | ERROR_RECOVERY
deriving DecidableEq, Fintype

/-- The `.value` string of each `core/config.py` `State` member. -/
def ConfigState.value : ConfigState → String
  | .IDLE => "idle"
  | .NEGOTIATING => "negotiating"
  | .DIAGNOSING => "diagnosing"
  | .PLANNING => "planning"
  | .SCORING => "scoring"
  | .VALIDATING => "validating"
  | .EXECUTING => "executing"
  | .LEARNING => "learning"
  | .ERROR_RECOVERY => "error_recovery"

/-- The value strings of the `core/config.py` `State` enum, in declaration
order. -/
def configStateValues : List String :=
  ["idle", "negotiating", "diagnosing", "planning", "scoring", "validating",
   "executing", "learning", "error_recovery"]

/-! ## Orchestrator (orchestrator.py) -/

/-- The ten states `orchestrator.py` references: the nine members of the
config enum plus `REPORTING`, which `_register_default_handlers` and
`_handle_executing` name even though `core/config.py` never defines it (the
C1 divergence).  The orchestrator's control flow is modelled over this
ten-member type. -/
inductive OState where
  | IDLE
  | NEGOTIATING
  | DIAGNOSING
  | PLANNING
  | SCORING
  | VALIDATING
  | EXECUTING
  | REPORTING
  | LEARNING
  | ERROR_RECOVERY
deriving DecidableEq

/-- The CS agent's risk assessment dict, as `_handle_validating` reads it:
a `recommendation` value (read with default `"APPROVE"`) and the `concerns`
text interpolated into the rejection message. -/
structure CSRes where
  recommendation : Option String
  concerns : String := ""

/-- The mutable `ExecutionContext` (orchestrator.py lines 13-25), restricted
to the fields the control flow reads or writes. -/
structure ECtx where
  user_request : String := ""
  diagnostics : List (String × PyVal) := []
  current_plan : Option RawPlan := Option.none
  confidence_score : ℚ := 0
  results : List PyVal := []
  error : Option String := Option.none
  summary : String := ""
  cm_response : Option PyVal := Option.none
  cs_assessment : Option CSRes := Option.none

/-- What one state handler invocation does: return an updated context and the
state it transitioned to, or raise an exception with message `msg` (caught by
the `run` loop). -/
inductive HOutcome where
  | ok (c : ECtx) (next : OState)
  | fault (msg : String)

/-- The external collaborators of one run, abstracted at the interfaces the
orchestrator calls (spec §6): the registry with its tool behaviours, the
router's answer per query (`Option.none` covers "no router", "no hit" and a
swallowed router exception), the planner LLM's extracted JSON, the CM agent's
reply and summary (`Option.none` = unavailable or failed, which the handlers
swallow), the CS agent's assessment, the safety mode and the display's
permission callback. -/
structure Collab where
  reg : ToolRegistry
  routerFind : String → Option RawPlan
  llmPlan : Option RawPlan
  cmResponse : Option PyVal := Option.none
  csAssessment : Option CSRes := Option.none
  cmSummary : Option String := Option.none
  mode : SafetyMode := SafetyMode.SAFE
  displayPerm : Option PermFn := Option.none

/-- The fixed diagnostic battery of `_handle_diagnosing`
(orchestrator.py lines 206-211): `(tool_name, label)` pairs. -/
def diagPairs : List (String × String) :=
  [("get_cpu_usage", "cpu"), ("get_memory_usage", "memory"),
   ("get_network_config", "network"), ("check_internet_connection", "connectivity")]

/-- `True` iff the optional status value is the string `"error"`
(`result.get("status") != "error"` negated). -/
def isErrStatus : Option PyVal → Bool
  | Option.some (.str s) => s == "error"
  | _ => false

/-- `_handle_diagnosing`'s collection loop (orchestrator.py lines 204-219):
each diagnostic tool is executed through the registry and kept only when the
result is a dict whose `status` is not `"error"`; failures are tolerated. -/
def collectDiags (reg : ToolRegistry) : List (String × PyVal) :=
  diagPairs.foldl
    (fun acc p =>
      match reg.execute p.1 [] with
      | .dict d => if isErrStatus (pyGet d "status") then acc
                   else acc ++ [(p.2, .dict d)]
      | _ => acc)
    []

/-- `CONFIDENCE_THRESHOLD` (config.py line 45). -/
def CONFIDENCE_THRESHOLD : ℚ := 8/10

/-- `r.get("status") == x` for a ledger entry: true iff the entry is a dict
whose `status` value is the string `x`. -/
def statusIs (e : PyVal) (x : String) : Bool :=
  match entryStatus e with
  | Option.some (.str t) => t == x
  | _ => false

/-- `Orchestrator._fallback_summary` (orchestrator.py lines 384-390). -/
def fallback_summary (results : List PyVal) : String :=
  let successes := (results.filter (fun r => statusIs r "success")).length
  let total := results.length
  if successes == total then
    s!"All {total} step(s) completed successfully."
  else
    s!"{successes}/{total} steps succeeded."

/-- The state handlers of orchestrator.py (lines 154-401), over the
collaborators `co`.  Each case is the translation of the corresponding
`_handle_*` method; a raised exception becomes `.fault`. -/
def handlers (co : Collab) : OState → ECtx → HOutcome
  | OState.IDLE, c => HOutcome.ok c OState.IDLE
  | OState.NEGOTIATING, c =>
      let c := { c with cm_response := co.cmResponse }
      (match co.routerFind c.user_request with
       | Option.some fastPlan =>
           HOutcome.ok { c with current_plan := Option.some fastPlan } OState.EXECUTING
       | Option.none => HOutcome.ok c OState.DIAGNOSING)
  | OState.DIAGNOSING, c =>
      HOutcome.ok { c with diagnostics := collectDiags co.reg } OState.PLANNING
  | OState.PLANNING, c =>
      (match generate_plan co.reg.names co.llmPlan with
       | Option.none =>
           HOutcome.ok { c with error := Option.some "Failed to generate plan" }
             OState.ERROR_RECOVERY
       | Option.some p =>
           HOutcome.ok { c with current_plan := Option.some p } OState.SCORING)
  | OState.SCORING, c =>
      (match c.current_plan with
       | Option.none => HOutcome.fault "NoneType object has no attribute get"
       | Option.some p =>
           match planSteps p.steps with
           | Option.none => HOutcome.fault "TypeError: steps is not iterable"
           | Option.some ss =>
               let score := orchScore co.reg ss p.confidence_prediction
               let c := { c with confidence_score := score }
               if CONFIDENCE_THRESHOLD ≤ score then HOutcome.ok c OState.EXECUTING
               else HOutcome.ok c OState.VALIDATING)
  | OState.VALIDATING, c =>
      if c.confidence_score < 7/10 then
        match co.csAssessment with
        | Option.some a =>
            let c := { c with cs_assessment := Option.some a }
            if a.recommendation.getD "APPROVE" == "REJECT" then
              let msg := "Plan rejected by CS Agent. Concerns: " ++ a.concerns
              HOutcome.ok { c with error := Option.some msg } OState.ERROR_RECOVERY
            else HOutcome.ok c OState.EXECUTING
        | Option.none => HOutcome.ok c OState.EXECUTING
      else HOutcome.ok c OState.EXECUTING
  | OState.EXECUTING, c =>
      (match c.current_plan with
       | Option.none => HOutcome.fault "NoneType object has no attribute get"
       | Option.some p =>
           match execute_plan (composedRunTool co.reg) co.reg
               (Option.some (check_permission co.mode co.displayPerm)) p with
           | Except.error e => HOutcome.fault e
           | Except.ok results =>
               HOutcome.ok { c with results := results } OState.REPORTING)
  | OState.REPORTING, c =>
      let summary := co.cmSummary.getD (fallback_summary c.results)
      HOutcome.ok { c with summary := summary } OState.LEARNING
  | OState.LEARNING, c => HOutcome.ok c OState.IDLE
  | OState.ERROR_RECOVERY, c => HOutcome.ok c OState.IDLE

/-- The `run` while-loop (orchestrator.py lines 99-112): keep invoking the
current state's handler until the state is `IDLE` or `ERROR_RECOVERY`; an
exception from a handler is caught, its message recorded into
`context.error`, and the state forced to `ERROR_RECOVERY`.  `fuel` bounds the
number of iterations (the Python loop has no such bound; every theorem below
supplies enough fuel for the loop to reach a terminal state). -/
def oLoop (h : OState → ECtx → HOutcome) : Nat → OState → ECtx → OState × ECtx
  | 0, s, c => (s, c)
  | Nat.succ n, s, c =>
      if s = OState.IDLE ∨ s = OState.ERROR_RECOVERY then (s, c)
      else match h s c with
        | HOutcome.ok c' s' => oLoop h n s' c'
        | HOutcome.fault msg =>
            oLoop h n OState.ERROR_RECOVERY { c with error := Option.some msg }

/-- `_handle_error` (orchestrator.py lines 403-410): append the synthetic
error entry carrying `context.error` (the state then returns to `IDLE`). -/
def handleError (c : ECtx) : ECtx :=
  { c with results := c.results ++
      [.dict [("status", .str "error"),
              ("error", match c.error with
                        | Option.some e => .str e
                        | Option.none => PyVal.none)]] }

/-- `Orchestrator.run(user_request)` (orchestrator.py lines 92-118): reset the
context, start at `NEGOTIATING`, drive the loop to a terminal state, run
`_handle_error` if that state is `ERROR_RECOVERY`, and return the results
ledger. -/
def orchRun (co : Collab) (fuel : Nat) (request : String) : List PyVal :=
  let c0 : ECtx := { user_request := request }
  let sc := oLoop (handlers co) fuel OState.NEGOTIATING c0
  let c := if sc.1 = OState.ERROR_RECOVERY then handleError sc.2 else sc.2
  c.results

/-! ## Concrete fixtures used by the claim witnesses and counterexamples -/

/-- The spec's abort scenario: `[stepA(abort-on-fail, fails), stepB]`, where
`stepA` fails by naming a tool absent from the registry. -/
def abortScenarioSteps : List Step :=
  [{ step_id := Option.some 1, tool_name := Option.some "missing_tool"
     arguments := Option.some [], on_failure := Option.some "abort" },
   { step_id := Option.some 2, tool_name := Option.some "get_cpu_usage"
     arguments := Option.some [], on_failure := Option.some "abort" }]

/-- The spec's continue scenario:
`[stepA(continue-on-fail, fails), stepB(succeeds)]`. -/
def continueScenarioSteps : List Step :=
  [{ step_id := Option.some 1, tool_name := Option.some "missing_tool"
     arguments := Option.some [], on_failure := Option.some "continue" },
   { step_id := Option.some 2, tool_name := Option.some "get_cpu_usage"
     arguments := Option.some [], on_failure := Option.some "abort" }]

/-- A plan whose first step invokes a raising tool with `on_failure: abort`
and whose second step invokes a succeeding tool. -/
def faultScenarioSteps : List Step :=
  [{ step_id := Option.some 1, tool_name := Option.some "flaky_tool"
     arguments := Option.some [], on_failure := Option.some "abort" },
   { step_id := Option.some 2, tool_name := Option.some "get_cpu_usage"
     arguments := Option.some [], on_failure := Option.some "abort" }]

/-- A registered tool whose callable returns a plain success dict. -/
def demoSuccessTool : ToolMeta :=
  { name := "get_cpu_usage"
    func := fun _ => ToolOutcome.ret (.dict [("status", .str "success")])
    risk_level := "SAFE" }

/-- A registered tool whose callable raises an exception. -/
def demoRaisingTool : ToolMeta :=
  { name := "flaky_tool"
    func := fun _ => ToolOutcome.raiseOther "boom"
    risk_level := "SAFE" }

/-- A registered tool whose callable returns a bare string (not a dict). -/
def demoStringTool : ToolMeta :=
  { name := "echo_tool"
    func := fun _ => ToolOutcome.ret (.str "hello")
    risk_level := "HIGH" }

/-- A small concrete registry. -/
def demoReg : ToolRegistry :=
  ⟨[demoSuccessTool, demoRaisingTool, demoStringTool]⟩

/-- A step dict naming `tool` with an explicit `step_id` and `on_failure`. -/
def mkStep (sid : Int) (tool : String) (onf : Option String) : Step :=
  { step_id := Option.some sid
    tool_name := Option.some tool
    arguments := Option.some []
    on_failure := onf }

/-- A plan step naming a registered tool. -/
def c6ValidStep : Step :=
  { step_id := Option.some 1, tool_name := Option.some "get_cpu_usage"
    arguments := Option.some [] }

/-- A plan step naming a tool absent from the registry (a hallucination). -/
def c6HallucinatedStep : Step :=
  { step_id := Option.some 2, tool_name := Option.some "invented_tool"
    arguments := Option.some [] }

/-- A raw LLM plan containing one valid and one hallucinated step. -/
def c6RawPlan : RawPlan :=
  { hasReasoning := true, confidence_prediction := Option.some (9/10)
    steps := StepsField.list [c6ValidStep, c6HallucinatedStep] }

/-- `c6RawPlan` after hallucination filtering. -/
def c6FilteredPlan : RawPlan :=
  { hasReasoning := true, confidence_prediction := Option.some (9/10)
    steps := StepsField.list [c6ValidStep] }

/-- A concrete router over `demoReg` whose backend always answers with
similarity `0.5` for corpus id `0` (rationals built with `Rat.mk'` so the
comparisons compute). -/
def c8Router : RouterState :=
  mkRouter (Rat.mk' 47 100) true (fun _ => Option.some (Rat.mk' 1 2, 0)) demoReg

/-- Collaborators with no router hit and a planner whose JSON extraction
fails. -/
def c7Co : Collab :=
  { reg := demoReg
    routerFind := fun _ => Option.none
    llmPlan := Option.none }

/-! ## Helper lemmas -/

theorem clamp01_nonneg (x : ℚ) : 0 ≤ clamp01 x := le_max_left 0 (min 1 x)

theorem clamp01_le_one (x : ℚ) : clamp01 x ≤ 1 :=
  max_le zero_le_one (min_le_left 1 x)

/-- The running structural score as a closed form: the start value minus
`0.3` for each step whose tool name misses the registry. -/
theorem foldl_score_closed (reg : ToolRegistry) (steps : List Step) (a : ℚ) :
    steps.foldl
      (fun score step =>
        if (reg.get step.effTool).isNone then score - 3/10 else score) a
    = a - 3/10 *
        ((steps.filter (fun s => (reg.get s.effTool).isNone)).length : ℚ) := by
  induction steps generalizing a with
  | nil => simp
  | cons s rest ih =>
      by_cases h : (reg.get s.effTool).isNone
      · simp [h, ih]
        ring
      · simp [h, ih]

/-- Projections other than `dependencies` are unchanged by a `dependencies`
update. -/
theorem effTool_update_deps (s : Step) (d : Option (List Int)) :
    Step.effTool { s with dependencies := d } = s.effTool := rfl

theorem effArgs_update_deps (s : Step) (d : Option (List Int)) :
    Step.effArgs { s with dependencies := d } = s.effArgs := rfl

/-- One executor iteration either stops with exactly one new ledger entry or
continues on the remaining steps with exactly one new entry; either way the
entry's `tool` field is the step's effective tool name. -/
theorem execPlanAux_cons_cases (rt : String → Args → Except String PyVal)
    (reg : ToolRegistry) (cf : Option PermFn) (step : Step) (rest : List Step)
    (acc : List PyVal) :
    (∃ e, execPlanAux rt reg cf (step :: rest) acc = acc ++ [e] ∧
          entryTool e = Option.some (.str step.effTool)) ∨
    (∃ e, execPlanAux rt reg cf (step :: rest) acc =
            execPlanAux rt reg cf rest (acc ++ [e]) ∧
          entryTool e = Option.some (.str step.effTool)) := by
  simp only [execPlanAux]
  split
  · split
    · exact Or.inl ⟨_, rfl, rfl⟩
    · exact Or.inr ⟨_, rfl, rfl⟩
  · split
    · split
      · exact Or.inl ⟨_, rfl, rfl⟩
      · exact Or.inr ⟨_, rfl, rfl⟩
    · split
      · exact Or.inr ⟨_, rfl, rfl⟩
      · split
        · exact Or.inl ⟨_, rfl, rfl⟩
        · exact Or.inr ⟨_, rfl, rfl⟩

/-- The executor only ever appends to the ledger it was given. -/
theorem execPlanAux_extends (rt : String → Args → Except String PyVal)
    (reg : ToolRegistry) (cf : Option PermFn) :
    ∀ (steps : List Step) (acc : List PyVal),
      ∃ tail, execPlanAux rt reg cf steps acc = acc ++ tail := by
  intro steps
  induction steps with
  | nil => exact fun acc => ⟨[], by simp [execPlanAux]⟩
  | cons step rest ih =>
      intro acc
      rcases execPlanAux_cons_cases rt reg cf step rest acc with
        ⟨e, he, _⟩ | ⟨e, he, _⟩
      · exact ⟨[e], he⟩
      · obtain ⟨t, ht⟩ := ih (acc ++ [e])
        exact ⟨e :: t, by rw [he, ht, List.append_assoc]; rfl⟩

/-- The ledger the executor produces is, entry for entry and in order, the
walked prefix of the plan: entry `i` carries step `i`'s tool, and at most
one entry exists per step. -/
theorem execPlanAux_ledger_shape (rt : String → Args → Except String PyVal)
    (reg : ToolRegistry) (cf : Option PermFn) :
    ∀ (steps : List Step) (acc : List PyVal),
      ∃ tail, execPlanAux rt reg cf steps acc = acc ++ tail ∧
        tail.length ≤ steps.length ∧
        tail.map entryTool =
          (steps.take tail.length).map
            (fun s => Option.some (PyVal.str s.effTool)) := by
  intro steps
  induction steps with
  | nil => exact fun acc => ⟨[], by simp [execPlanAux], by simp, by simp⟩
  | cons step rest ih =>
      intro acc
      rcases execPlanAux_cons_cases rt reg cf step rest acc with
        ⟨e, he, hte⟩ | ⟨e, he, hte⟩
      · exact ⟨[e], he, by simp, by simp [hte]⟩
      · obtain ⟨t, ht, hlen, hmap⟩ := ih (acc ++ [e])
        refine ⟨e :: t, by rw [he, ht, List.append_assoc]; rfl, ?_, ?_⟩
        · simpa using Nat.succ_le_succ hlen
        · simp [hte, hmap, List.take_succ_cons]

/-- Congruence in the head step: the executor reads only `effTool`,
`effArgs`, `step_id` and `on_failure` of a step. -/
theorem execPlanAux_step_congr (rt : String → Args → Except String PyVal)
    (reg : ToolRegistry) (cf : Option PermFn) (s₁ s₂ : Step)
    (h1 : s₁.effTool = s₂.effTool) (h2 : s₁.effArgs = s₂.effArgs)
    (h3 : s₁.step_id = s₂.step_id) (h4 : s₁.on_failure = s₂.on_failure)
    (rest₁ rest₂ : List Step)
    (hrest : ∀ acc, execPlanAux rt reg cf rest₁ acc =
                    execPlanAux rt reg cf rest₂ acc)
    (acc : List PyVal) :
    execPlanAux rt reg cf (s₁ :: rest₁) acc =
      execPlanAux rt reg cf (s₂ :: rest₂) acc := by
  simp only [execPlanAux, h1, h2, h3, h4, hrest]

/-- Denied-everywhere permission: the walk records each resolved step as
skipped and each unresolved step as failed; nothing else can appear. -/
theorem execPlanAux_denyAll_statuses (rt : String → Args → Except String PyVal)
    (reg : ToolRegistry) (cb : PermFn)
    (hcb : ∀ sid tool risk args, cb sid tool risk args = false) :
    ∀ (steps : List Step) (acc : List PyVal) (e : PyVal),
      e ∈ execPlanAux rt reg (Option.some cb) steps acc →
      e ∈ acc ∨ (∃ sid tool, e = skippedEntry sid tool) ∨
        (∃ sid tool, e = notFoundEntry sid tool) := by
  intro steps
  induction steps with
  | nil => intro acc e he; exact Or.inl he
  | cons step rest ih =>
      intro acc e he
      simp only [execPlanAux] at he
      split at he
      · split at he
        · rcases List.mem_append.mp he with h | h
          · exact Or.inl h
          · exact Or.inr (Or.inr ⟨_, _, List.mem_singleton.mp h⟩)
        · rcases ih _ e he with h | h | h
          · rcases List.mem_append.mp h with h' | h'
            · exact Or.inl h'
            · exact Or.inr (Or.inr ⟨_, _, List.mem_singleton.mp h'⟩)
          · exact Or.inr (Or.inl h)
          · exact Or.inr (Or.inr h)
      · split at he
        · split at he
          · rcases List.mem_append.mp he with h | h
            · exact Or.inl h
            · exact Or.inr (Or.inl ⟨_, _, List.mem_singleton.mp h⟩)
          · rcases ih _ e he with h | h | h
            · rcases List.mem_append.mp h with h' | h'
              · exact Or.inl h'
              · exact Or.inr (Or.inl ⟨_, _, List.mem_singleton.mp h'⟩)
            · exact Or.inr (Or.inl h)
            · exact Or.inr (Or.inr h)
        · rename_i hden
          rw [hcb] at hden
          simp at hden

/-! ## C1 -/

/-- C1: the claim says the orchestrator's `State` enum has exactly the ten
members `Idle, Negotiating, Diagnosing, Planning, Scoring, Validating,
Executing, Reporting, Learning, ErrorRecovery`.  The enum `core/config.py`
actually defines has nine distinct members and no member whose value is
`"reporting"`, even though `orchestrator.py` references `State.REPORTING`
and the repository's own test expects `State("reporting")` to exist. -/
theorem C1_state_enum_lacks_reporting :
    (∀ s : ConfigState, s.value ≠ "reporting") ∧
    configStateValues.length = 9 ∧
    configStateValues.Nodup ∧
    (∀ s : ConfigState, s.value ∈ configStateValues) := by
  refine ⟨?_, by decide, by decide, ?_⟩ <;> intro s <;> cases s <;> decide

/-! ## C4 -/

/-- C4: the stored confidence score equals the clamp to `[0,1]` of
`(s + c) / 2`, where `s` is `1.0` minus `0.3` per step whose tool name is
absent from the registry and `c` is the plan's `confidence_prediction`
defaulting to `0.5`; consequently the stored score is always in `[0,1]`. -/
theorem C4_confidence_score_formula_and_bounds :
    ∀ (reg : ToolRegistry) (steps : List Step) (conf : Option ℚ),
      orchScore reg steps conf = specScore reg steps conf ∧
      0 ≤ orchScore reg steps conf ∧ orchScore reg steps conf ≤ 1 := by
  intro reg steps conf
  refine ⟨?_, clamp01_nonneg _, clamp01_le_one _⟩
  unfold orchScore specScore runningScore
  rw [foldl_score_closed]

/-! ## C9 -/

/-- C9 as stated is false: `ToolRegistry.execute` passes a tool's normal
return value through unchanged, so it returns a non-dict whenever the
callable returns one.  Concretely, `echo_tool` returns the bare string
`"hello"` and `execute` hands it back as-is rather than a dict. -/
theorem C9_counterexample_nondict_result :
    (demoReg.execute "echo_tool" []).isDict = false := by rfl

/-- C9 (amended): `ToolRegistry.execute` never propagates an exception; its
result is either the callable's own return value passed through unchanged
(and hence a dict only when the callable returned one), or an
`{status: error, message: ...}` dict produced from an unknown name, a
`TypeError`, or any other exception raised by the callable. -/
theorem C9_execute_error_conversion :
    ∀ (reg : ToolRegistry) (name : String) (params : Args),
      (∃ meta, reg.get name = Option.some meta ∧
        meta.func params = ToolOutcome.ret (reg.execute name params)) ∨
      (∃ m, reg.execute name params =
        .dict [("status", .str "error"), ("message", .str m)]) := by
  intro reg name params
  cases hget : reg.get name with
  | none =>
      refine Or.inr ⟨"Tool " ++ name ++ " not found", ?_⟩
      simp only [ToolRegistry.execute, hget]
  | some meta =>
      cases hf : meta.func params with
      | ret v =>
          refine Or.inl ⟨meta, rfl, ?_⟩
          simp only [ToolRegistry.execute, hget, hf]
      | raiseTypeError m =>
          refine Or.inr ⟨"Invalid parameters: " ++ m, ?_⟩
          simp only [ToolRegistry.execute, hget, hf]
      | raiseOther m =>
          refine Or.inr ⟨"Execution failed: " ++ m, ?_⟩
          simp only [ToolRegistry.execute, hget, hf]

/-! ## C3 -/

/-- C3: decisions not auto-approved by the safety mode are denied when no
confirmation collaborator is attached (Safe mode auto-approves nothing;
SemiAutonomous auto-approves only Safe-risk tools), and under the Safe-mode
no-display policy the executor records every resolved step as `skipped` and
no ledger entry is ever `success`. -/
theorem C3_safe_mode_fail_closed :
    (∀ (sid : Int) (tool risk : String) (args : Args),
       check_permission SafetyMode.SAFE Option.none sid tool risk args = false) ∧
    (∀ (sid : Int) (tool risk : String) (args : Args), pyUpper risk ≠ "SAFE" →
       check_permission SafetyMode.SEMI_AUTONOMOUS Option.none sid tool risk args
         = false) ∧
    (∀ (rt : String → Args → Except String PyVal) (reg : ToolRegistry)
       (step : Step) (rest : List Step) (acc : List PyVal) (meta : ToolMeta),
       reg.get step.effTool = Option.some meta →
       ∃ t, execPlanAux rt reg
              (Option.some (check_permission SafetyMode.SAFE Option.none))
              (step :: rest) acc =
            acc ++ skippedEntry (step.step_id.getD (Int.ofNat acc.length + 1))
              step.effTool :: t) ∧
    (∀ (rt : String → Args → Except String PyVal) (reg : ToolRegistry)
       (steps : List Step) (e : PyVal),
       e ∈ execPlanAux rt reg
             (Option.some (check_permission SafetyMode.SAFE Option.none))
             steps [] →
       statusIs e "success" = false ∧
         (statusIs e "skipped" = true ∨ statusIs e "failed" = true)) := by
  refine ⟨fun _ _ _ _ => rfl, ?_, ?_, ?_⟩
  · intro sid tool risk args h
    have hb : (pyUpper risk == "SAFE") = false := by
      simpa using h
    simp [check_permission, hb]
  · intro rt reg step rest acc meta hget
    simp only [execPlanAux, hget]
    split
    · split
      · exact ⟨[], rfl⟩
      · obtain ⟨t, ht⟩ := execPlanAux_extends rt reg _ rest
          (acc ++ [skippedEntry (step.step_id.getD (Int.ofNat acc.length + 1))
            step.effTool])
        exact ⟨t, by rw [ht, List.append_assoc]; rfl⟩
    · rename_i hden
      exact absurd rfl hden
  · intro rt reg steps e he
    have hcb : ∀ (sid : Int) (tool risk : String) (args : Args),
        check_permission SafetyMode.SAFE Option.none sid tool risk args = false :=
      fun _ _ _ _ => rfl
    rcases execPlanAux_denyAll_statuses rt reg _ hcb steps [] e he with
      h | ⟨sid, tool, rfl⟩ | ⟨sid, tool, rfl⟩
    · exact absurd h (List.not_mem_nil e)
    · exact ⟨rfl, Or.inl rfl⟩
    · exact ⟨rfl, Or.inr rfl⟩

/-! ## C5 -/

/-- C5: the executor walks steps strictly in list order ignoring the
`dependencies` field, appends exactly one result per attempted step in
execution order and nothing for steps after an aborting failure; the two
spec scenarios produce exactly the claimed ledgers. -/
theorem C5_executor_list_order_and_scenarios :
    (∀ (rt : String → Args → Except String PyVal) (reg : ToolRegistry)
       (cf : Option PermFn) (f : Step → Option (List Int)) (steps : List Step)
       (acc : List PyVal),
       execPlanAux rt reg cf
           (steps.map (fun s => { s with dependencies := f s })) acc =
         execPlanAux rt reg cf steps acc) ∧
    (∀ (rt : String → Args → Except String PyVal) (reg : ToolRegistry)
       (cf : Option PermFn) (steps : List Step),
       (execPlanAux rt reg cf steps []).length ≤ steps.length ∧
       (execPlanAux rt reg cf steps []).map entryTool =
         (steps.take (execPlanAux rt reg cf steps []).length).map
           (fun s => Option.some (PyVal.str s.effTool))) ∧
    (execute_plan (composedRunTool demoReg) demoReg Option.none
       { hasReasoning := true, steps := StepsField.list abortScenarioSteps } =
       Except.ok [notFoundEntry 1 "missing_tool"]) ∧
    statusIs (notFoundEntry 1 "missing_tool") "failed" = true ∧
    (∃ e2, execute_plan (composedRunTool demoReg) demoReg Option.none
       { hasReasoning := true, steps := StepsField.list continueScenarioSteps } =
       Except.ok [notFoundEntry 1 "missing_tool", e2] ∧
       statusIs e2 "success" = true) := by
  refine ⟨?_, ?_, by rfl, by rfl, ⟨_, by rfl, by rfl⟩⟩
  · intro rt reg cf f steps
    induction steps with
    | nil => intro acc; rfl
    | cons s rest ih =>
        intro acc
        simp only [List.map_cons]
        exact execPlanAux_step_congr rt reg cf _ s rfl rfl rfl rfl _ rest ih acc
  · intro rt reg cf steps
    obtain ⟨tail, ht, hlen, hmap⟩ := execPlanAux_ledger_shape rt reg cf steps []
    rw [List.nil_append] at ht
    rw [ht]
    exact ⟨hlen, hmap⟩

/-! ## C2 -/

/-- C2 as stated is false on the composed code: a fault raised by a tool is
caught inside `registry.execute` and returned as an error dict, so the
executor appends a `StepResult` whose status is `error` (not `failed`) and
walks on to the next step even though the step's `on_failure` is `abort`.
Here `flaky_tool` raises with `on_failure: abort`, yet the ledger has two
entries, the first with status `error`. -/
theorem C2_counterexample_fault_not_failed :
    execute_plan (composedRunTool demoReg) demoReg
      (Option.some (fun _ _ _ _ => true))
      { hasReasoning := true, steps := StepsField.list faultScenarioSteps } =
    Except.ok
      [.dict [("step_id", .int 1), ("tool", .str "flaky_tool"),
              ("status", .str "error"),
              ("result", .dict [("status", .str "error"),
                                ("message", .str "Execution failed: boom")])],
       .dict [("step_id", .int 2), ("tool", .str "get_cpu_usage"),
              ("status", .str "success"),
              ("result", .dict [("status", .str "success")])]] := by rfl

/-- C2 (amended): for a resolved, permitted step whose tool callable raises,
the registry dispatch converts the fault into an
`{status: error, message: "Execution failed: ..."}` dict, and the executor
appends a `StepResult` with that embedded `error` status (not `failed`) and
continues to the next step regardless of the step's `on_failure`; the
executor's `failed`-with-abort branch is reserved for exceptions escaping its
internal `_run` helper, which the registry dispatch never lets happen for
tool-raised faults. -/
theorem C2_tool_fault_surfaces_as_error_status :
    ∀ (reg : ToolRegistry) (cf : Option PermFn) (step : Step)
      (rest : List Step) (acc : List PyVal) (meta : ToolMeta) (emsg : String),
      reg.get step.effTool = Option.some meta →
      (∀ cb, cf = Option.some cb →
         cb (step.step_id.getD (Int.ofNat acc.length + 1)) step.effTool
           meta.risk_level step.effArgs = true) →
      meta.func step.effArgs = ToolOutcome.raiseOther emsg →
      (execPlanAux (composedRunTool reg) reg cf (step :: rest) acc =
         execPlanAux (composedRunTool reg) reg cf rest
           (acc ++ [okEntry (step.step_id.getD (Int.ofNat acc.length + 1))
              step.effTool
              (.dict [("status", .str "error"),
                      ("message", .str ("Execution failed: " ++ emsg))])])) ∧
      statusIs (okEntry (step.step_id.getD (Int.ofNat acc.length + 1))
          step.effTool
          (.dict [("status", .str "error"),
                  ("message", .str ("Execution failed: " ++ emsg))])) "error"
        = true := by
  intro reg cf step rest acc meta emsg hget hperm hf
  have hexec : reg.execute step.effTool step.effArgs =
      .dict [("status", .str "error"),
             ("message", .str ("Execution failed: " ++ emsg))] := by
    simp only [ToolRegistry.execute, hget, hf]
  refine ⟨?_, rfl⟩
  simp only [execPlanAux, hget]
  cases cf with
  | none =>
      simp only [Bool.false_eq_true, if_false, composedRunTool, hexec]
  | some cb =>
      have hcb := hperm cb rfl
      simp only [hcb, Bool.not_true, Bool.false_eq_true, if_false,
        composedRunTool, hexec]

/-! ## C10 -/

/-- C10: a step that omits `on_failure` is treated as `abort`: a lookup
failure, a permission denial, or a fault raised out of `Executor._run` on
such a step each stop the walk with that step's entry as the last; and the
router's synthesized single-step plan explicitly sets `on_failure` to
`abort`. -/
theorem C10_missing_on_failure_defaults_to_abort :
    (∀ (rt : String → Args → Except String PyVal) (reg : ToolRegistry)
       (cf : Option PermFn) (step : Step) (rest : List Step) (acc : List PyVal),
       step.on_failure = Option.none →
       (reg.get step.effTool = Option.none →
          execPlanAux rt reg cf (step :: rest) acc =
            acc ++ [notFoundEntry (step.step_id.getD (Int.ofNat acc.length + 1))
              step.effTool]) ∧
       (∀ meta cb, reg.get step.effTool = Option.some meta →
          cf = Option.some cb →
          cb (step.step_id.getD (Int.ofNat acc.length + 1)) step.effTool
            meta.risk_level step.effArgs = false →
          execPlanAux rt reg cf (step :: rest) acc =
            acc ++ [skippedEntry (step.step_id.getD (Int.ofNat acc.length + 1))
              step.effTool]) ∧
       (∀ meta e, reg.get step.effTool = Option.some meta →
          (∀ cb, cf = Option.some cb →
             cb (step.step_id.getD (Int.ofNat acc.length + 1)) step.effTool
               meta.risk_level step.effArgs = true) →
          rt step.effTool step.effArgs = Except.error e →
          execPlanAux rt reg cf (step :: rest) acc =
            acc ++ [exceptEntry (step.step_id.getD (Int.ofNat acc.length + 1))
              step.effTool e])) ∧
    (∀ (r : RouterState) (query : String) (p : RawPlan),
       find_tool r query = Option.some p →
       ∃ s, p.steps = StepsField.list [s] ∧ s.on_failure = Option.some "abort") := by
  constructor
  · intro rt reg cf step rest acc honf
    refine ⟨?_, ?_, ?_⟩
    · intro hget
      simp [execPlanAux, hget, honf]
    · intro meta cb hget hcf hcb
      subst hcf
      simp only [execPlanAux, hget, honf, Option.getD_none]
      split
      · split
        · rfl
        · rename_i h
          exact absurd rfl h
      · rename_i hden
        rw [hcb] at hden
        simp at hden
    · intro meta e hget hperm hrt
      simp only [execPlanAux, hget, honf, Option.getD_none]
      cases cf with
      | none =>
          split
          · rename_i hden
            simp at hden
          · simp only [hrt]
            split
            · rfl
            · rename_i h
              exact absurd rfl h
      | some cb =>
          split
          · rename_i hden
            have hp := hperm cb rfl
            simp at hp hden
            simp [hp] at hden
          · simp only [hrt]
            split
            · rfl
            · rename_i h
              exact absurd rfl h
  · intro r query p hp
    unfold find_tool at hp
    split at hp
    · exact absurd hp (by simp)
    · split at hp
      · exact absurd hp (by simp)
      · split at hp
        · exact absurd hp (by simp)
        · split at hp
          · rename_i score idx hth
            injection hp with hp
            exact ⟨_, by rw [← hp]; rfl, rfl⟩
          · exact absurd hp (by simp)

/-! ## C6 -/

/-- C6: a plan accepted from the planning collaborator has had every step
whose `tool_name` is not an advertised tool name removed, so its steps carry
only registered names; consequently (for the actual registry, whose names are
nonempty Python identifiers) every remaining step's effective tool name
resolves in the registry and is never a lookup failure at execution. -/
theorem C6_accepted_plan_references_registered_tools :
    ∀ (reg : ToolRegistry) (llm : Option RawPlan) (p : RawPlan) (ss : List Step),
      generate_plan reg.names llm = Option.some p →
      p.steps = StepsField.list ss →
      (∀ s, s ∈ ss → ∃ t, s.tool_name = Option.some t ∧ t ∈ reg.names) ∧
      ((∀ m, m ∈ reg.tools → m.name ≠ "") →
         ∀ s, s ∈ ss → (reg.get s.effTool).isSome = true) := by
  intro reg llm p ss hgen hsteps
  cases llm with
  | none => exact absurd hgen (by simp [generate_plan])
  | some r =>
      simp only [generate_plan] at hgen
      cases hrs : r.steps with
      | absent => simp [hrs, validate_plan_schema] at hgen
      | notList v => simp [hrs, validate_plan_schema] at hgen
      | list ss0 =>
          rw [hrs] at hgen
          split at hgen
          case isFalse => exact absurd hgen (by simp)
          case isTrue hv =>
            injection hgen with hp
            subst hp
            simp only at hsteps
            injection hsteps with hss
            subst hss
            have ha : ∀ s, s ∈ filterSteps reg.names ss0 →
                ∃ t, s.tool_name = Option.some t ∧ t ∈ reg.names := by
              intro s hs
              simp only [filterSteps] at hs
              have hpred := (List.mem_filter.mp hs).2
              cases ht : s.tool_name with
              | none => rw [ht] at hpred; simp at hpred
              | some t =>
                  rw [ht] at hpred
                  exact ⟨t, rfl, by simpa using hpred⟩
            refine ⟨ha, ?_⟩
            intro hne s hs
            obtain ⟨t, ht, htm⟩ := ha s hs
            have htne : t ≠ "" := by
              simp only [ToolRegistry.names, List.mem_map] at htm
              obtain ⟨m, hm, hmn⟩ := htm
              rw [← hmn]
              exact hne m hm
            have heff : s.effTool = t := by
              simp [Step.effTool, ht, htne]
            rw [heff]
            simp only [ToolRegistry.names, List.mem_map] at htm
            obtain ⟨m, hm, hmn⟩ := htm
            rw [ToolRegistry.get, List.find?_isSome]
            exact ⟨m, hm, by simpa using hmn⟩

/-! ## C8 -/

/-- C8: the router indexes only safe-risk tools with no required parameters;
an unavailable embedding backend behaves exactly like "no match"; and for an
available backend a top hit at or above the threshold yields a one-step plan
with empty arguments whose `confidence_prediction` is the similarity score,
while a top hit below the threshold yields no match. -/
theorem C8_router_contract :
    (∀ (reg : ToolRegistry) (n : String), n ∈ indexNames reg.list_tools →
       ∃ m, m ∈ reg.tools ∧ m.name = n ∧ pyLower m.risk_level = "safe" ∧
         m.parameters.filter (fun q => q.required) = []) ∧
    (∀ (r : RouterState) (query : String), r.modelLoaded = false →
       find_tool r query = Option.none) ∧
    (∀ (r : RouterState) (query : String) (score : ℚ) (idx : Nat),
       r.modelLoaded = true → r.indexed ≠ [] →
       r.topHit query = Option.some (score, idx) →
       (r.threshold ≤ score →
          ∃ p s, find_tool r query = Option.some p ∧
            p.steps = StepsField.list [s] ∧
            s.tool_name = r.indexed.get? idx ∧
            s.arguments = Option.some [] ∧
            p.confidence_prediction = Option.some score) ∧
       (score < r.threshold → find_tool r query = Option.none)) := by
  refine ⟨?_, ?_, ?_⟩
  · intro reg n hn
    simp only [indexNames, ToolRegistry.list_tools, List.mem_map,
      List.mem_filter] at hn
    obtain ⟨lt, ⟨⟨m, hm, hml⟩, hpred⟩, hname⟩ := hn
    subst hml
    simp only [Bool.and_eq_true] at hpred
    refine ⟨m, hm, hname, ?_, ?_⟩
    · simpa using hpred.1
    · simpa [List.isEmpty_iff] using hpred.2
  · intro r query h
    simp [find_tool, h]
  · intro r query score idx hml hne hth
    have hie : r.indexed.isEmpty = false := by
      simpa [List.isEmpty_iff] using hne
    constructor
    · intro hsc
      refine ⟨routerPlan (r.indexed.get? idx) score, _, ?_, rfl, rfl, rfl, rfl⟩
      simp [find_tool, hml, hie, hth, hsc, routerPlan]
    · intro hsc
      simp [find_tool, hml, hie, hth, not_le.mpr hsc]

/-! ## C7 -/

/-- The run loop returns immediately once the state is `ErrorRecovery`. -/
theorem oLoop_error_terminal (h : OState → ECtx → HOutcome) (n : Nat) (c : ECtx) :
    oLoop h n OState.ERROR_RECOVERY c = (OState.ERROR_RECOVERY, c) := by
  cases n with
  | zero => rfl
  | succ n => simp [oLoop]

/-- C7: an exception raised by a state handler is caught by the `run` loop,
its message is captured into `context.error`, and the state is forced to
`ErrorRecovery`; and when the planner returns `None` the run ends through
`ErrorRecovery` with a returned ledger of exactly one `error` entry carrying
the error message. -/
theorem C7_fault_capture_and_planner_null_ledger :
    (∀ (h : OState → ECtx → HOutcome) (n : Nat) (s : OState) (c : ECtx)
       (msg : String),
       ¬(s = OState.IDLE ∨ s = OState.ERROR_RECOVERY) →
       h s c = HOutcome.fault msg →
       oLoop h (n + 1) s c =
         oLoop h n OState.ERROR_RECOVERY { c with error := Option.some msg }) ∧
    (∀ (co : Collab) (fuel : Nat) (request : String),
       co.routerFind request = Option.none →
       co.llmPlan = Option.none →
       3 ≤ fuel →
       orchRun co fuel request =
         [.dict [("status", .str "error"),
                 ("error", .str "Failed to generate plan")]]) := by
  constructor
  · intro h n s c msg hs hf
    rw [oLoop, if_neg hs, hf]
  · intro co fuel request hrouter hllm hfuel
    obtain ⟨k, rfl⟩ : ∃ k, fuel = k + 3 := ⟨fuel - 3, by omega⟩
    have e1 : oLoop (handlers co) (k + 3) OState.NEGOTIATING
          { user_request := request } =
        oLoop (handlers co) (k + 2) OState.DIAGNOSING
          { user_request := request, cm_response := co.cmResponse } := by
      rw [show k + 3 = (k + 2) + 1 from rfl, oLoop, if_neg (by simp)]
      simp only [handlers, hrouter]
    have e2 : oLoop (handlers co) (k + 2) OState.DIAGNOSING
          ({ user_request := request, cm_response := co.cmResponse } : ECtx) =
        oLoop (handlers co) (k + 1) OState.PLANNING
          { user_request := request, cm_response := co.cmResponse
            diagnostics := collectDiags co.reg } := by
      rw [show k + 2 = (k + 1) + 1 from rfl, oLoop, if_neg (by simp)]
      simp only [handlers]
    have e3 : oLoop (handlers co) (k + 1) OState.PLANNING
          ({ user_request := request, cm_response := co.cmResponse
             diagnostics := collectDiags co.reg } : ECtx) =
        (OState.ERROR_RECOVERY,
          { user_request := request, cm_response := co.cmResponse
            diagnostics := collectDiags co.reg
            error := Option.some "Failed to generate plan" }) := by
      rw [oLoop, if_neg (by simp)]
      simp only [handlers, hllm, generate_plan]
      exact oLoop_error_terminal _ _ _
    simp only [orchRun, e1, e2, e3]
    rfl

/-! ## Witnesses -/

/-- Witness for C2: `flaky_tool` raises `boom` on step 1 with
`on_failure: abort`, yet the walk records an `error`-status entry and
continues to step 2. -/
theorem C2_witness :
    (execPlanAux (composedRunTool demoReg) demoReg
        (Option.some (fun _ _ _ _ => true)) faultScenarioSteps [] =
      execPlanAux (composedRunTool demoReg) demoReg
        (Option.some (fun _ _ _ _ => true)) (faultScenarioSteps.drop 1)
        ([] ++ [okEntry 1 "flaky_tool"
          (.dict [("status", .str "error"),
                  ("message", .str "Execution failed: boom")])])) ∧
    statusIs (okEntry 1 "flaky_tool"
        (.dict [("status", .str "error"),
                ("message", .str "Execution failed: boom")])) "error" = true := by
  exact C2_tool_fault_surfaces_as_error_status demoReg
    (Option.some (fun _ _ _ _ => true))
    { step_id := Option.some 1, tool_name := Option.some "flaky_tool"
      arguments := Option.some [], on_failure := Option.some "abort" }
    (faultScenarioSteps.drop 1) [] demoRaisingTool "boom" rfl
    (fun cb hcb => by cases hcb; rfl) rfl

/-- Witness for C3: the Safe-mode/no-display policy denies a concrete high
risk step, SemiAutonomous denies a concrete non-safe risk, and the concrete
one-step plan over a registered tool is recorded as `skipped`. -/
theorem C3_witness :
    check_permission SafetyMode.SAFE Option.none 1 "delete_file" "HIGH" []
      = false ∧
    check_permission SafetyMode.SEMI_AUTONOMOUS Option.none 1 "delete_file"
      "HIGH" [] = false ∧
    (∃ t, execPlanAux (composedRunTool demoReg) demoReg
        (Option.some (check_permission SafetyMode.SAFE Option.none))
        [mkStep 1 "get_cpu_usage" (Option.some "abort")] [] =
      [] ++ skippedEntry 1 "get_cpu_usage" :: t) ∧
    (statusIs (skippedEntry 1 "get_cpu_usage") "success" = false ∧
      (statusIs (skippedEntry 1 "get_cpu_usage") "skipped" = true ∨
        statusIs (skippedEntry 1 "get_cpu_usage") "failed" = true)) := by
  refine ⟨C3_safe_mode_fail_closed.1 1 "delete_file" "HIGH" [],
    C3_safe_mode_fail_closed.2.1 1 "delete_file" "HIGH" [] (by decide),
    C3_safe_mode_fail_closed.2.2.1 (composedRunTool demoReg) demoReg
      (mkStep 1 "get_cpu_usage" (Option.some "abort")) [] [] demoSuccessTool rfl,
    C3_safe_mode_fail_closed.2.2.2 (composedRunTool demoReg) demoReg
      [mkStep 1 "get_cpu_usage" (Option.some "abort")]
      (skippedEntry 1 "get_cpu_usage") ?_⟩
  rw [show execPlanAux (composedRunTool demoReg) demoReg
      (Option.some (check_permission SafetyMode.SAFE Option.none))
      [mkStep 1 "get_cpu_usage" (Option.some "abort")] [] =
      [skippedEntry 1 "get_cpu_usage"] from rfl]
  exact List.mem_singleton.mpr rfl

/-- Witness for C6: the accepted filtered plan's surviving step resolves in
the registry. -/
theorem C6_witness :
    (demoReg.get c6ValidStep.effTool).isSome = true := by
  have h := C6_accepted_plan_references_registered_tools demoReg
    (Option.some c6RawPlan) c6FilteredPlan [c6ValidStep] rfl rfl
  exact h.2 (by decide) c6ValidStep (by simp)

/-- Witness for C7: a faulting Scoring handler (no current plan) forces
`ErrorRecovery` with the message captured, and a run whose planner returns
`None` yields exactly one `error` ledger entry. -/
theorem C7_witness :
    (oLoop (handlers c7Co) 1 OState.SCORING {} =
      oLoop (handlers c7Co) 0 OState.ERROR_RECOVERY
        { error := Option.some "NoneType object has no attribute get" }) ∧
    orchRun c7Co 3 "restart the audio service" =
      [.dict [("status", .str "error"),
              ("error", .str "Failed to generate plan")]] := by
  exact ⟨C7_fault_capture_and_planner_null_ledger.1 (handlers c7Co) 0
      OState.SCORING {} "NoneType object has no attribute get" (by simp) rfl,
    C7_fault_capture_and_planner_null_ledger.2 c7Co 3
      "restart the audio service" rfl rfl (by norm_num)⟩

/-- Witness for C8: the concrete router's backend answers `0.5 ≥ 0.47` for
corpus id 0, so a one-step plan for the first indexed tool comes back with
`confidence_prediction = 0.5`. -/
theorem C8_witness :
    ∃ p s, find_tool c8Router "check my cpu" = Option.some p ∧
      p.steps = StepsField.list [s] ∧
      s.tool_name = c8Router.indexed.get? 0 ∧
      s.arguments = Option.some [] ∧
      p.confidence_prediction = Option.some (Rat.mk' 1 2) := by
  exact (C8_router_contract.2.2 c8Router "check my cpu" (Rat.mk' 1 2) 0 rfl
    (by decide) rfl).1 (by decide)

/-- Witness for C10: a step with no `on_failure` key stops the walk on a
lookup failure, on a permission denial, and on a raised fault; and the
router's synthesized plan carries `on_failure: abort`. -/
theorem C10_witness :
    (execPlanAux (composedRunTool demoReg) demoReg Option.none
       [{ step_id := Option.some 1, tool_name := Option.some "missing_tool"
          arguments := Option.some [] }] [] =
      [] ++ [notFoundEntry 1 "missing_tool"]) ∧
    (execPlanAux (composedRunTool demoReg) demoReg
       (Option.some (fun _ _ _ _ => false))
       [{ step_id := Option.some 1, tool_name := Option.some "get_cpu_usage"
          arguments := Option.some [] }] [] =
      [] ++ [skippedEntry 1 "get_cpu_usage"]) ∧
    (execPlanAux (fun _ _ => Except.error "boom") demoReg Option.none
       [{ step_id := Option.some 1, tool_name := Option.some "get_cpu_usage"
          arguments := Option.some [] }] [] =
      [] ++ [exceptEntry 1 "get_cpu_usage" "boom"]) ∧
    (∃ s, (routerPlan (Option.some "get_cpu_usage") (Rat.mk' 1 2)).steps =
        StepsField.list [s] ∧ s.on_failure = Option.some "abort") := by
  refine ⟨?_, ?_, ?_, ?_⟩
  · exact (C10_missing_on_failure_defaults_to_abort.1 _ demoReg Option.none _
      [] [] rfl).1 rfl
  · exact (C10_missing_on_failure_defaults_to_abort.1 _ demoReg _ _
      [] [] rfl).2.1 demoSuccessTool _ rfl rfl rfl
  · exact (C10_missing_on_failure_defaults_to_abort.1 _ demoReg Option.none _
      [] [] rfl).2.2 demoSuccessTool "boom" rfl (fun cb hcb => nomatch hcb) rfl
  · exact C10_missing_on_failure_defaults_to_abort.2 c8Router "open my files" _ rfl

end PCAssist
